import Mathlib

/-!
# Verification of the Aicade Discord notifier (`main.py`)

A shallow embedding of the change-detection and notification-dispatch engine
of `main.py`: the JSON values the catalog API returns, the Python operations
the script applies to them (`in`, subscript, `.get`, `set(...)`, truthiness,
f-string rendering), the fetcher `scrape_aicade_games`, the state helpers
`load_seen_games` / `save_seen_games`, the cycle `check_for_new_games`, and a
small interleaving model of the scheduler (`tasks.loop` plus the `!aicade
checknow` command).

Effectful calls (HTTP fetch, Discord sends, file I/O) are parametrised by
their outcomes, so the cycle becomes a pure function of those outcomes.
Python exceptions that the script does *not* catch are modelled with
`Except String`: an `Except.error` value is an uncaught exception escaping
to the caller.
-/

namespace Aicade

/-- A parsed JSON value, as produced by `json.load` / `response.json()`.
Object keys are assumed unique (duplicate keys in a JSON text, where Python
keeps the last occurrence, are not modelled). -/
inductive JValue where
  | null : JValue
  | bool (b : Bool) : JValue
  | num (n : Int) : JValue
  | str (s : String) : JValue
  | arr (xs : List JValue) : JValue
  | obj (kvs : List (String × JValue)) : JValue
deriving Repr

namespace JValue

mutual

/-- Structural equality on JSON values (Python `==` restricted to JSON data;
the Python identification of `True` with `1` is not modelled, and no claim
exercises it). -/
def jeq : JValue → JValue → Bool
  | .null, .null => true
  | .bool a, .bool b => a == b
  | .num a, .num b => a == b
  | .str a, .str b => a == b
  | .arr xs, .arr ys => jeqList xs ys
  | .obj xs, .obj ys => jeqObj xs ys
  | _, _ => false

def jeqList : List JValue → List JValue → Bool
  | [], [] => true
  | x :: xs, y :: ys => jeq x y && jeqList xs ys
  | _, _ => false

def jeqObj : List (String × JValue) → List (String × JValue) → Bool
  | [], [] => true
  | (k₁, v₁) :: xs, (k₂, v₂) :: ys => k₁ == k₂ && jeq v₁ v₂ && jeqObj xs ys
  | _, _ => false

end

mutual

theorem jeq_iff : ∀ (a b : JValue), jeq a b = true ↔ a = b
  | .null, .null => by simp [jeq]
  | .bool a, .bool b => by simp [jeq]
  | .num a, .num b => by simp [jeq]
  | .str a, .str b => by simp [jeq]
  | .arr xs, .arr ys => by simp [jeq, jeqList_iff xs ys]
  | .obj xs, .obj ys => by simp [jeq, jeqObj_iff xs ys]
  | .null, .bool _ | .null, .num _ | .null, .str _ | .null, .arr _ | .null, .obj _
  | .bool _, .null | .bool _, .num _ | .bool _, .str _ | .bool _, .arr _ | .bool _, .obj _
  | .num _, .null | .num _, .bool _ | .num _, .str _ | .num _, .arr _ | .num _, .obj _
  | .str _, .null | .str _, .bool _ | .str _, .num _ | .str _, .arr _ | .str _, .obj _
  | .arr _, .null | .arr _, .bool _ | .arr _, .num _ | .arr _, .str _ | .arr _, .obj _
  | .obj _, .null | .obj _, .bool _ | .obj _, .num _ | .obj _, .str _ | .obj _, .arr _ => by
      simp [jeq]

theorem jeqList_iff : ∀ (xs ys : List JValue), jeqList xs ys = true ↔ xs = ys
  | [], [] => by simp [jeqList]
  | x :: xs, y :: ys => by
      simp [jeqList, jeq_iff x y, jeqList_iff xs ys]
  | [], _ :: _ => by simp [jeqList]
  | _ :: _, [] => by simp [jeqList]

theorem jeqObj_iff : ∀ (xs ys : List (String × JValue)), jeqObj xs ys = true ↔ xs = ys
  | [], [] => by simp [jeqObj]
  | (k₁, v₁) :: xs, (k₂, v₂) :: ys => by
      simp [jeqObj, jeq_iff v₁ v₂, jeqObj_iff xs ys, and_assoc]
  | [], _ :: _ => by simp [jeqObj]
  | _ :: _, [] => by simp [jeqObj]

end

instance : DecidableEq JValue := fun a b =>
  decidable_of_iff (jeq a b = true) (jeq_iff a b)

end JValue

/-! ## Python operations on JSON values

Each helper models one Python operation exactly as it behaves on
`json.load`-produced data; `Except.error` is an uncaught Python exception. -/

mutual

/-- Python `repr` of a JSON value (as used by `str` on containers). String
escaping inside `repr` of a string is not modelled (no claim exercises it). -/
def pyRepr : JValue → String
  | .null => "None"
  | .bool true => "True"
  | .bool false => "False"
  | .num n => toString n
  | .str s => "\x27" ++ s ++ "\x27"
  | .arr xs => "[" ++ String.intercalate ", " (pyReprList xs) ++ "]"
  | .obj kvs => "\x7b" ++ String.intercalate ", " (pyReprObj kvs) ++ "\x7d"

def pyReprList : List JValue → List String
  | [] => []
  | x :: xs => pyRepr x :: pyReprList xs

def pyReprObj : List (String × JValue) → List String
  | [] => []
  | (k, v) :: kvs => ("\x27" ++ k ++ "\x27: " ++ pyRepr v) :: pyReprObj kvs

end

/-- Python `str(v)` / f-string interpolation of a JSON value. -/
def pyStr : JValue → String
  | .str s => s
  | v => pyRepr v

/-- Python truthiness of a JSON value. -/
def pyTruthy : JValue → Bool
  | .null => false
  | .bool b => b
  | .num n => n != 0
  | .str s => s != ""
  | .arr xs => !xs.isEmpty
  | .obj kvs => !kvs.isEmpty

/-- Python truthiness of the result of `dict.get` (`None` when absent). -/
def pyTruthyOpt : Option JValue → Bool
  | none => false
  | some v => pyTruthy v

/-- Whether a JSON value is hashable in Python (lists and dicts are not). -/
def hashable : JValue → Bool
  | .arr _ => false
  | .obj _ => false
  | _ => true

/-- Dict lookup on the association list of an object. -/
def jget (kvs : List (String × JValue)) (k : String) : Option JValue :=
  match kvs with
  | [] => none
  | (k₁, v) :: rest => if k₁ = k then some v else jget rest k

/-- Substring test on character lists (Python `pat in s` for strings). -/
def charsContain (pat : List Char) : List Char → Bool
  | [] => pat.isEmpty
  | c :: rest => pat.isPrefixOf (c :: rest) || charsContain pat rest

/-- Python `key in v` for a string `key`: key test on dicts, membership by
`==` on lists, substring test on strings, `TypeError` otherwise. -/
def pyContains (key : String) : JValue → Except String Bool
  | .obj kvs => .ok (jget kvs key).isSome
  | .arr xs => .ok (xs.any (fun x => JValue.jeq x (JValue.str key)))
  | .str s => .ok (charsContain key.toList s.toList)
  | _ => .error "TypeError: argument is not iterable"

/-- Python `v[key]` for a string `key`. -/
def pySubscript (v : JValue) (key : String) : Except String JValue :=
  match v with
  | .obj kvs =>
      match jget kvs key with
      | some x => .ok x
      | none => .error "KeyError"
  | .arr _ => .error "TypeError: list indices must be integers"
  | .str _ => .error "TypeError: string indices must be integers"
  | _ => .error "TypeError: object is not subscriptable"

/-- Python `v.get(key)`: total on dicts, `AttributeError` on anything else. -/
def pyGet (v : JValue) (key : String) : Except String (Option JValue) :=
  match v with
  | .obj kvs => .ok (jget kvs key)
  | _ => .error "AttributeError: object has no attribute get"

/-- Python `set(v)` on a JSON value. The set is modelled by the list of its
elements; deduplication is omitted because the script only observes the set
through membership tests and `json.dump(list(s))`, and every stated claim
reads the dumped list only up to membership. A non-iterable value or an
unhashable element raises `TypeError`. -/
def pySet : JValue → Except String (List JValue)
  | .arr xs => if xs.all hashable then .ok xs else .error "TypeError: unhashable type"
  | .str s => .ok (s.toList.map (fun c => JValue.str (String.mk [c])))
  | .obj kvs => .ok (kvs.map (fun p => JValue.str p.1))
  | _ => .error "TypeError: object is not iterable"

/-- Python `s.add(v)` on a set modelled as its element list. -/
def pySetAdd (s : List JValue) (v : JValue) : List JValue :=
  if v ∈ s then s else s ++ [v]

/-! ## Announcement state: `load_seen_games` / `save_seen_games`

The state file is abstracted by what reading it yields: absent, unreadable
(`IOError`), unparseable (`json.JSONDecodeError`), or a parsed JSON value. -/

/-- Observable state of `seen_games.json` at the moment it is read. -/
inductive FileState where
  | missing
  | ioError
  | badJson
  | content (v : JValue)
deriving DecidableEq, Repr

/-- `load_seen_games` (main.py lines 39-50): missing file, unreadable file and
invalid JSON all yield the empty set after logging; a parsed value `v` is
passed to `set(v)`, whose `TypeError` is *not* caught. -/
def load_seen_games : FileState → Except String (List JValue)
  | .missing => .ok []
  | .ioError => .ok []
  | .badJson => .ok []
  | .content v => pySet v

/-- `save_seen_games` (main.py lines 52-58): writes `json.dump(list(s))`;
an `IOError` is caught and logged, leaving the previous file in place. -/
def save_seen_games (seen : List JValue) (writeOk : Bool) (old : FileState) : FileState :=
  if writeOk then .content (.arr seen) else old

/-! ## Catalog fetcher: `scrape_aicade_games` -/

/-- Outcome of `requests.get(AICADE_API_URL)` followed by `response.json()`:
a `requests.RequestException` (including HTTP error statuses raised by
`raise_for_status`), a JSON decode failure, or a parsed body. -/
inductive FetchOutcome where
  | requestError
  | jsonDecodeError
  | ok (v : JValue)
deriving DecidableEq, Repr

/-- One fetched catalog item as built at main.py line 90:
`{'title': title, 'url': full_url, 'cover_image': cover_image_url}`. -/
structure Game where
  title : JValue
  url : String
  cover_image : Option JValue
deriving DecidableEq, Repr

/-- Loop body of the fetcher on one `item['data']` record (main.py lines
83-90): read `game_title`, `publish_id`, `cover_image` with `.get`, and build
a game iff both `title` and `publish_id` are truthy. `.get` on a non-dict
raises `AttributeError` (uncaught). -/
def buildGame (game_data : JValue) : Except String (Option Game) := do
  let title ← pyGet game_data "game_title"
  let publish_id ← pyGet game_data "publish_id"
  let cover_image_url ← pyGet game_data "cover_image"
  match title, publish_id with
  | some t, some p =>
      if pyTruthy t && pyTruthy p then
        return some { title := t, url := "https://play.aicade.io/" ++ pyStr p,
                      cover_image := cover_image_url }
      else
        return none
  | _, _ => return none

/-- One iteration of `for item in game_list` (main.py lines 80-90):
`continue` when `'data' not in item`, else process `item['data']`. -/
def processItem (item : JValue) : Except String (Option Game) := do
  let b ← pyContains "data" item
  if !b then return none
  let game_data ← pySubscript item "data"
  buildGame game_data

/-- The fetcher's accumulation loop over `game_list`, preserving API order. -/
def scrapeLoop : List JValue → Except String (List Game)
  | [] => .ok []
  | item :: rest => do
      let og ← processItem item
      let gs ← scrapeLoop rest
      match og with
      | some g => return g :: gs
      | none => return gs

/-- `scrape_aicade_games` (main.py lines 60-92). Fetch/JSON failures return
`[]`; then the guard
`'data' not in api_data or 'data' not in api_data['data'] or not isinstance(api_data['data']['data'], list)`
is evaluated left to right with Python semantics (so a non-container value at
either level raises an uncaught `TypeError`), and the surviving list is
folded by `processItem`. -/
def scrape_aicade_games (resp : FetchOutcome) : Except String (List Game) :=
  match resp with
  | .requestError => .ok []
  | .jsonDecodeError => .ok []
  | .ok api_data => do
      let b₁ ← pyContains "data" api_data
      if !b₁ then return []
      let d₁ ← pySubscript api_data "data"
      let b₂ ← pyContains "data" d₁
      if !b₂ then return []
      let inner ← pySubscript d₁ "data"
      match inner with
      | .arr game_list => scrapeLoop game_list
      | _ => return []

/-! ## Media decision (main.py lines 141-144) -/

/-- The spec's `MediaDecision`: one of `AttachBytes`, `ReferenceUrl`,
`Placeholder`. The code below never constructs `AttachBytes`. -/
inductive MediaDecision where
  | AttachBytes (bytes : List Nat) (filename : String)
  | ReferenceUrl (url : JValue)
  | Placeholder (url : String)
deriving DecidableEq, Repr

/-- The fixed fallback image passed to `set_thumbnail` (main.py line 144). -/
def logo_url : String := "https://play.aicade.io/assets/logo-914387a0.png"

/-- The test at main.py line 141:
`game.get('cover_image') and game['cover_image'] != 'null'`. -/
def coverValid : Option JValue → Bool
  | some c => pyTruthy c && !(JValue.jeq c (JValue.str "null"))
  | none => false

/-- The media decision the dispatcher implements (main.py lines 141-144):
`set_image(url=cover)` when the cover is truthy and not the literal string
`'null'`, else `set_thumbnail` with the fixed logo. No download, no
signature check, and the `gif_url` field of the API entry plays no part. -/
def resolve_media (cover : Option JValue) : MediaDecision :=
  match cover with
  | some c =>
      if pyTruthy c && !(JValue.jeq c (JValue.str "null")) then .ReferenceUrl c
      else .Placeholder logo_url
  | none => .Placeholder logo_url

/-- Discriminator for the `AttachBytes` variant. -/
def isAttachBytes : MediaDecision → Bool
  | .AttachBytes _ _ => true
  | _ => false

/-- Modelled from the spec: the code has no signature check, so the spec's
"recognized animated-image file signature" is rendered here, for stating the
claims about the absent download path, as the GIF magic bytes
(`GIF87a` / `GIF89a`). -/
def spec_animated_signature (bytes : List Nat) : Bool :=
  [71, 73, 70, 56, 55, 97].isPrefixOf bytes || [71, 73, 70, 56, 57, 97].isPrefixOf bytes

/-! ## Notification dispatch: `check_for_new_games` (main.py lines 103-154) -/

/-- The embed built at main.py lines 133-144. -/
structure Embed where
  title : String
  url : String
  description : String
  footer : String
  image : Option JValue
  thumbnail : Option String
deriving DecidableEq, Repr

/-- Embed construction for one game (main.py lines 133-144). -/
def mkEmbed (g : Game) : Embed :=
  { title := "ðŸŽ® New Game Alert: " ++ pyStr g.title
    url := g.url
    description := "A new game, **" ++ pyStr g.title ++ "**, is now available!"
    footer := "Aicade Game Notifier Bot"
    image := if coverValid g.cover_image then g.cover_image else none
    thumbnail := if coverValid g.cover_image then none else some logo_url }

/-- Outcome of one `channel.send`: delivered, `discord.errors.Forbidden`, or
another `discord.errors.HTTPException` (`Forbidden` is a subclass of
`HTTPException`, so a bare `except HTTPException` catches both). -/
inductive SendOutcome where
  | ok
  | forbidden
  | httpErr
deriving DecidableEq, Repr

/-- Outcomes of the effectful calls of one cycle. -/
structure Effects where
  mention : SendOutcome
  embedSend : Game → SendOutcome
  writeOk : Bool

/-- A message actually delivered to the channel. -/
inductive Msg where
  | roleMention
  | gameEmbed (e : Embed)
deriving DecidableEq, Repr

/-- Python set membership `u in seen` / `not in` via element-wise `==`. -/
def seenContains (seen : List JValue) (u : String) : Bool :=
  seen.any (fun v => JValue.jeq v (JValue.str u))

/-- The change detection at main.py line 119:
`[game for game in reversed(current_games) if game['url'] not in seen_games_urls]`. -/
def detectNew (current_games : List Game) (seen : List JValue) : List Game :=
  (current_games.reverse).filter (fun g => !(seenContains seen g.url))

/-- Loop body at main.py lines 146-150: try to send the embed; on success add
the url to the in-memory set, on `HTTPException` (hence also `Forbidden`) log
and keep the set unchanged. -/
def sendStep (send : Game → SendOutcome) (acc : List Msg × List JValue) (g : Game) :
    List Msg × List JValue :=
  match send g with
  | .ok => (acc.1 ++ [Msg.gameEmbed (mkEmbed g)], pySetAdd acc.2 (JValue.str g.url))
  | _ => acc

/-- The in-memory seen set after the dispatch loop over `l` (the second
component of the fold of `sendStep`, which is independent of the message
component of the accumulator). -/
def commitSet (send : Game → SendOutcome) (seen : List JValue) (l : List Game) :
    List JValue :=
  (l.foldl (sendStep send) ([], seen)).2

/-- The dispatch part of `check_for_new_games` (main.py lines 119-154),
given the fetched games and the loaded seen set. A `Forbidden` mention
returns early (line 128), skipping the per-game sends *and* the save; any
other mention failure only logs (lines 129-130) and dispatch proceeds. -/
def runCycleBody (games : List Game) (seen : List JValue) (file : FileState)
    (eff : Effects) : List Msg × FileState :=
  let new_games_found := detectNew games seen
  if new_games_found.isEmpty then ([], file) else
  match eff.mention with
  | .forbidden => ([], file)
  | m =>
    let msgs₀ : List Msg := if m = SendOutcome.ok then [Msg.roleMention] else []
    let r := new_games_found.foldl (sendStep eff.embedSend) (msgs₀, seen)
    (r.1, save_seen_games r.2 eff.writeOk file)

/-- `check_for_new_games` (main.py lines 103-154) as a function of the
outcomes of its effectful calls. Returns the list of messages delivered to
the channel and the resulting state file; `Except.error` is an uncaught
Python exception escaping the task body. -/
def check_for_new_games (channelFound : Bool) (resp : FetchOutcome)
    (file : FileState) (eff : Effects) : Except String (List Msg × FileState) :=
  if !channelFound then .ok ([], file) else
  match scrape_aicade_games resp with
  | .error e => .error e
  | .ok current_games =>
    if current_games.isEmpty then .ok ([], file) else
    match load_seen_games file with
    | .error e => .error e
    | .ok seen => .ok (runCycleBody current_games seen file eff)

/-! ## Scheduler (`tasks.loop` plus the `!aicade checknow` command)

A minimal interleaving model of the two entry points into the cycle.
The timer loop (`@tasks.loop(minutes=1)`, main.py line 103) awaits each
iteration before sleeping, so a new *timer* iteration can only start when
the previous one has finished. The command `manual_check` (main.py lines
163-169) awaits `check_for_new_games.now()` — but `discord.ext.tasks.Loop`
defines no attribute `now` in any released discord.py, so that attribute
lookup raises `AttributeError` inside the command handler before any
pipeline iteration is invoked: a manual trigger never starts a cycle. -/

/-- The public methods `discord.ext.tasks.Loop` defines (discord.py 1.x-2.x,
the library the repository imports; it is not part of src/). `now` is not
among them, so `check_for_new_games.now` at main.py line 168 raises
`AttributeError`. -/
def loop_methods : List String :=
  ["start", "stop", "cancel", "restart", "is_running", "is_being_cancelled",
   "failed", "get_task", "change_interval", "before_loop", "after_loop", "error",
   "add_exception_type", "remove_exception_type", "clear_exception_types"]

/-- Python attribute lookup of a method on the task-loop object. -/
def loopGetMethod (name : String) : Except String String :=
  if name ∈ loop_methods then .ok name
  else .error ("AttributeError: Loop object has no attribute " ++ name)

/-- Scheduler state: whether a timer-driven iteration is in flight. No
manually-triggered execution can ever be in flight, because the manual path
raises before invoking one (`loopGetMethod "now"` is an error). -/
structure SchedState where
  timerBusy : Bool
deriving DecidableEq, Repr

/-- Number of executions of the pipeline currently in flight. -/
def inFlight (s : SchedState) : Nat :=
  if s.timerBusy then 1 else 0

/-- Scheduler events: a timer tick, completion of the timer iteration, and a
`!aicade checknow` invocation. -/
inductive SchedEvent where
  | timerTick
  | timerDone
  | manualTrigger
deriving DecidableEq, Repr

/-- One scheduler transition. A tick arriving while the timer iteration
still runs cannot start a second timer iteration (the loop is `await`ing
the current one). A manual trigger starts nothing in any state — not
because of a mutual-exclusion gate (`manual_check` has none), but because
the `check_for_new_games.now` lookup raises `AttributeError` first. -/
def schedStep (s : SchedState) : SchedEvent → SchedState
  | .timerTick => if s.timerBusy then s else { s with timerBusy := true }
  | .timerDone => { s with timerBusy := false }
  | .manualTrigger => s

/-- Run the scheduler from the initial idle state. -/
def schedRun (evs : List SchedEvent) : SchedState :=
  evs.foldl schedStep ⟨false⟩

/-! ## Concrete inputs used by witnesses and counterexamples -/

/-- A well-formed `item['data']` record of the catalog response. -/
def demoGameData : List (String × JValue) :=
  [("game_title", .str "Snake"), ("publish_id", .str "abc123"),
   ("cover_image", .str "https://img.aicade.io/snake.png")]

/-- The game the fetcher builds from `demoGameData`. -/
def demoGame : Game :=
  { title := .str "Snake", url := "https://play.aicade.io/abc123",
    cover_image := some (.str "https://img.aicade.io/snake.png") }

/-- A well-formed catalog response containing exactly `demoGameData`. -/
def demoResponse : JValue :=
  .obj [("data", .obj [("data", .arr [.obj [("data", .obj demoGameData)]])])]

/-- Three previously-unseen games, published in the order A, B, C. -/
def gameA : Game := { title := .str "A", url := "https://play.aicade.io/a1", cover_image := none }

def gameB : Game := { title := .str "B", url := "https://play.aicade.io/b2", cover_image := none }

def gameC : Game := { title := .str "C", url := "https://play.aicade.io/c3", cover_image := none }

/-- A catalog entry whose record carries a valid animated reference. -/
def gifEntry : JValue :=
  .obj [("data", .obj [("game_title", .str "Snake"), ("publish_id", .str "abc123"),
                       ("gif_url", .str "https://cdn.aicade.io/anim.gif")])]

/-- An inline-data URI, which the claim requires to be skipped. -/
def dataUri : String := "data:image/png;base64,iVBORw0KGgo"

/-! ## Helper lemmas -/

theorem seenContains_iff (s : List JValue) (u : String) :
    seenContains s u = true ↔ JValue.str u ∈ s := by
  simp [seenContains, List.any_eq_true, JValue.jeq_iff]

theorem mem_pySetAdd_iff (s : List JValue) (v w : JValue) :
    v ∈ pySetAdd s w ↔ v ∈ s ∨ v = w := by
  by_cases h : w ∈ s
  · simp only [pySetAdd, if_pos h]
    constructor
    · exact Or.inl
    · rintro (hv | rfl)
      · exact hv
      · exact h
  · simp [pySetAdd, if_neg h]

theorem mem_detectNew_iff (games : List Game) (seen : List JValue) (g : Game) :
    g ∈ detectNew games seen ↔ g ∈ games ∧ seenContains seen g.url = false := by
  simp [detectNew, List.mem_filter, List.mem_reverse, Bool.not_eq_true']

theorem detectNew_eq_nil_iff (games : List Game) (seen : List JValue) :
    detectNew games seen = [] ↔ ∀ g ∈ games, seenContains seen g.url = true := by
  simp [detectNew, List.filter_eq_nil_iff, List.mem_reverse]

theorem sendFold_fst (send : Game → SendOutcome) (l : List Game) :
    ∀ (m : List Msg) (s : List JValue),
      (l.foldl (sendStep send) (m, s)).1 = m ++ (l.foldl (sendStep send) ([], s)).1 := by
  induction l with
  | nil => intro m s; simp
  | cons g l ih =>
      intro m s
      simp only [List.foldl_cons]
      cases h : send g with
      | ok =>
          simp only [sendStep, h, List.nil_append]
          rw [ih (m ++ [Msg.gameEmbed (mkEmbed g)]) (pySetAdd s (JValue.str g.url)),
              ih [Msg.gameEmbed (mkEmbed g)] (pySetAdd s (JValue.str g.url))]
          simp
      | forbidden => simp only [sendStep, h]; exact ih m s
      | httpErr => simp only [sendStep, h]; exact ih m s

theorem sendFold_snd (send : Game → SendOutcome) (l : List Game) :
    ∀ (m : List Msg) (s : List JValue),
      (l.foldl (sendStep send) (m, s)).2 = commitSet send s l := by
  induction l with
  | nil => intro m s; simp [commitSet]
  | cons g l ih =>
      intro m s
      unfold commitSet
      simp only [List.foldl_cons]
      cases h : send g with
      | ok =>
          simp only [sendStep, h, List.nil_append]
          rw [ih (m ++ [Msg.gameEmbed (mkEmbed g)]) (pySetAdd s (JValue.str g.url)),
              ih [Msg.gameEmbed (mkEmbed g)] (pySetAdd s (JValue.str g.url))]
      | forbidden => simp only [sendStep, h]; exact ih m s
      | httpErr => simp only [sendStep, h]; exact ih m s

theorem commitSet_cons (send : Game → SendOutcome) (s : List JValue) (g : Game)
    (l : List Game) :
    commitSet send s (g :: l)
      = commitSet send (match send g with
                        | .ok => pySetAdd s (JValue.str g.url)
                        | _ => s) l := by
  cases h : send g with
  | ok =>
      show (List.foldl (sendStep send) ([], s) (g :: l)).2 = _
      simp only [List.foldl_cons, sendStep, h, List.nil_append]
      rw [sendFold_snd send l [Msg.gameEmbed (mkEmbed g)] (pySetAdd s (JValue.str g.url))]
  | forbidden =>
      show (List.foldl (sendStep send) ([], s) (g :: l)).2 = _
      simp only [List.foldl_cons, sendStep, h]
      rfl
  | httpErr =>
      show (List.foldl (sendStep send) ([], s) (g :: l)).2 = _
      simp only [List.foldl_cons, sendStep, h]
      rfl

theorem mem_commitSet_of_mem (send : Game → SendOutcome) (v : JValue) :
    ∀ (l : List Game) (s : List JValue), v ∈ s → v ∈ commitSet send s l := by
  intro l
  induction l with
  | nil => intro s h; simpa [commitSet] using h
  | cons g l ih =>
      intro s h
      rw [commitSet_cons]
      cases hs : send g with
      | ok => exact ih _ ((mem_pySetAdd_iff _ _ _).mpr (Or.inl h))
      | forbidden => exact ih _ h
      | httpErr => exact ih _ h

theorem mem_commitSet_of_sent (send : Game → SendOutcome) (g : Game)
    (hs : send g = SendOutcome.ok) :
    ∀ (l : List Game) (s : List JValue), g ∈ l →
      JValue.str g.url ∈ commitSet send s l := by
  intro l
  induction l with
  | nil => intro s hg; cases hg
  | cons g₀ l ih =>
      intro s hg
      rw [commitSet_cons]
      rcases List.mem_cons.mp hg with rfl | hg'
      · rw [hs]
        exact mem_commitSet_of_mem send _ l _ ((mem_pySetAdd_iff _ _ _).mpr (Or.inr rfl))
      · cases hsend : send g₀
        · exact ih _ hg'
        · exact ih _ hg'
        · exact ih _ hg'

theorem mem_commitSet_iff_of_not_sent (send : Game → SendOutcome) (u : String) :
    ∀ (l : List Game) (s : List JValue),
      (∀ g ∈ l, send g = SendOutcome.ok → g.url ≠ u) →
      (JValue.str u ∈ commitSet send s l ↔ JValue.str u ∈ s) := by
  intro l
  induction l with
  | nil => intro s _; simp [commitSet]
  | cons g l ih =>
      intro s h
      rw [commitSet_cons]
      have htail : ∀ g' ∈ l, send g' = SendOutcome.ok → g'.url ≠ u :=
        fun g' hg' => h g' (List.mem_cons_of_mem _ hg')
      cases hs : send g with
      | ok =>
          rw [ih _ htail, mem_pySetAdd_iff]
          have hne : g.url ≠ u := h g (List.mem_cons_self _ _) hs
          constructor
          · rintro (hv | hv)
            · exact hv
            · exact absurd (JValue.str.inj hv).symm hne
          · exact Or.inl
      | forbidden => exact ih _ htail
      | httpErr => exact ih _ htail

theorem mem_commitSet_cases (send : Game → SendOutcome) (v : JValue) :
    ∀ (l : List Game) (s : List JValue), v ∈ commitSet send s l →
      v ∈ s ∨ ∃ g ∈ l, v = JValue.str g.url := by
  intro l
  induction l with
  | nil => intro s h; exact Or.inl (by simpa [commitSet] using h)
  | cons g l ih =>
      intro s h
      rw [commitSet_cons] at h
      cases hs : send g with
      | ok =>
          rw [hs] at h
          rcases ih _ h with hv | ⟨g', hg', rfl⟩
          · rcases (mem_pySetAdd_iff _ _ _).mp hv with hv' | rfl
            · exact Or.inl hv'
            · exact Or.inr ⟨g, List.mem_cons_self _ _, rfl⟩
          · exact Or.inr ⟨g', List.mem_cons_of_mem _ hg', rfl⟩
      | forbidden =>
          rw [hs] at h
          rcases ih _ h with hv | ⟨g', hg', rfl⟩
          · exact Or.inl hv
          · exact Or.inr ⟨g', List.mem_cons_of_mem _ hg', rfl⟩
      | httpErr =>
          rw [hs] at h
          rcases ih _ h with hv | ⟨g', hg', rfl⟩
          · exact Or.inl hv
          · exact Or.inr ⟨g', List.mem_cons_of_mem _ hg', rfl⟩

theorem hashable_of_load (file : FileState) (seen : List JValue)
    (h : load_seen_games file = .ok seen) : ∀ v ∈ seen, hashable v = true := by
  cases file with
  | missing =>
      injection h with h'
      intro v hv
      rw [← h'] at hv
      cases hv
  | ioError =>
      injection h with h'
      intro v hv
      rw [← h'] at hv
      cases hv
  | badJson =>
      injection h with h'
      intro v hv
      rw [← h'] at hv
      cases hv
  | content v =>
      cases v with
      | arr xs =>
          simp only [load_seen_games, pySet] at h
          split at h
          · next hall =>
              injection h with h'
              subst h'
              exact fun v hv => List.all_eq_true.mp hall v hv
          · cases h
      | str s =>
          simp only [load_seen_games, pySet] at h
          injection h with h'
          subst h'
          intro v hv
          rcases List.mem_map.mp hv with ⟨c, _, rfl⟩
          rfl
      | obj kvs =>
          simp only [load_seen_games, pySet] at h
          injection h with h'
          subst h'
          intro v hv
          rcases List.mem_map.mp hv with ⟨p, _, rfl⟩
          rfl
      | null => exact Except.noConfusion h
      | bool b => exact Except.noConfusion h
      | num n => exact Except.noConfusion h

theorem load_content_arr (s : List JValue) (h : ∀ v ∈ s, hashable v = true) :
    load_seen_games (.content (.arr s)) = .ok s := by
  have hall : s.all hashable = true := List.all_eq_true.mpr h
  simp [load_seen_games, pySet, hall]

theorem seenContains_eq_false (s : List JValue) (u : String)
    (h : JValue.str u ∉ s) : seenContains s u = false := by
  cases hb : seenContains s u
  · rfl
  · exact absurd ((seenContains_iff s u).mp hb) h

theorem not_mem_of_seenContains_eq_false (s : List JValue) (u : String)
    (h : seenContains s u = false) : JValue.str u ∉ s := by
  intro hmem
  rw [(seenContains_iff s u).mpr hmem] at h
  cases h

theorem hashable_commitSet (send : Game → SendOutcome) (l : List Game)
    (seen : List JValue) (h : ∀ v ∈ seen, hashable v = true) :
    ∀ v ∈ commitSet send seen l, hashable v = true := by
  intro v hv
  rcases mem_commitSet_cases send v l seen hv with hv' | ⟨g, _, rfl⟩
  · exact h v hv'
  · rfl

/-! ### Path lemmas for `check_for_new_games` -/

theorem check_scrape_error (resp : FetchOutcome) (file : FileState) (eff : Effects)
    (e : String) (hscrape : scrape_aicade_games resp = .error e) :
    check_for_new_games true resp file eff = .error e := by
  unfold check_for_new_games
  rw [hscrape]
  rfl

theorem check_empty (resp : FetchOutcome) (file : FileState) (eff : Effects)
    (hscrape : scrape_aicade_games resp = .ok []) :
    check_for_new_games true resp file eff = .ok ([], file) := by
  unfold check_for_new_games
  rw [hscrape]
  rfl

theorem check_load_error (resp : FetchOutcome) (file : FileState) (eff : Effects)
    (games : List Game) (e : String)
    (hscrape : scrape_aicade_games resp = .ok games) (hgames : games ≠ [])
    (hload : load_seen_games file = .error e) :
    check_for_new_games true resp file eff = .error e := by
  cases games with
  | nil => exact absurd rfl hgames
  | cons g₀ gs =>
      unfold check_for_new_games
      rw [hscrape, hload]
      rfl

theorem check_ok (resp : FetchOutcome) (file : FileState) (eff : Effects)
    (games : List Game) (seen : List JValue)
    (hscrape : scrape_aicade_games resp = .ok games) (hgames : games ≠ [])
    (hload : load_seen_games file = .ok seen) :
    check_for_new_games true resp file eff = .ok (runCycleBody games seen file eff) := by
  cases games with
  | nil => exact absurd rfl hgames
  | cons g₀ gs =>
      unfold check_for_new_games
      rw [hscrape, hload]
      rfl

theorem runCycleBody_no_new (games : List Game) (seen : List JValue)
    (file : FileState) (eff : Effects) (hnew : detectNew games seen = []) :
    runCycleBody games seen file eff = ([], file) := by
  simp only [runCycleBody]
  rw [hnew]
  rfl

theorem runCycleBody_forbidden (games : List Game) (seen : List JValue)
    (file : FileState) (eff : Effects) (hm : eff.mention = SendOutcome.forbidden) :
    runCycleBody games seen file eff = ([], file) := by
  simp only [runCycleBody, hm]
  split
  · rfl
  · rfl

theorem runCycleBody_dispatch (games : List Game) (seen : List JValue)
    (file : FileState) (eff : Effects)
    (hne : detectNew games seen ≠ []) (hm : eff.mention ≠ SendOutcome.forbidden) :
    runCycleBody games seen file eff
      = ((if eff.mention = SendOutcome.ok then [Msg.roleMention] else [])
           ++ ((detectNew games seen).foldl (sendStep eff.embedSend) ([], seen)).1,
         save_seen_games (commitSet eff.embedSend seen (detectNew games seen))
           eff.writeOk file) := by
  cases hd : detectNew games seen with
  | nil => exact absurd hd hne
  | cons d ds =>
      simp only [runCycleBody]
      rw [hd]
      cases hms : eff.mention with
      | forbidden => exact absurd hms hm
      | ok =>
          show (((d :: ds).foldl (sendStep eff.embedSend) ([Msg.roleMention], seen)).1,
                save_seen_games
                  ((d :: ds).foldl (sendStep eff.embedSend) ([Msg.roleMention], seen)).2
                  eff.writeOk file)
              = ([Msg.roleMention] ++ ((d :: ds).foldl (sendStep eff.embedSend) ([], seen)).1,
                 save_seen_games (commitSet eff.embedSend seen (d :: ds)) eff.writeOk file)
          rw [sendFold_fst eff.embedSend (d :: ds) [Msg.roleMention] seen,
              sendFold_snd eff.embedSend (d :: ds) [Msg.roleMention] seen]
      | httpErr =>
          show (((d :: ds).foldl (sendStep eff.embedSend) ([], seen)).1,
                save_seen_games
                  ((d :: ds).foldl (sendStep eff.embedSend) ([], seen)).2
                  eff.writeOk file)
              = ([] ++ ((d :: ds).foldl (sendStep eff.embedSend) ([], seen)).1,
                 save_seen_games (commitSet eff.embedSend seen (d :: ds)) eff.writeOk file)
          rw [sendFold_snd eff.embedSend (d :: ds) [] seen]
          rfl

theorem check_no_new (resp : FetchOutcome) (file : FileState) (eff : Effects)
    (games : List Game) (seen : List JValue)
    (hscrape : scrape_aicade_games resp = .ok games)
    (hload : load_seen_games file = .ok seen)
    (hnew : detectNew games seen = []) :
    check_for_new_games true resp file eff = .ok ([], file) := by
  cases games with
  | nil => exact check_empty resp file eff hscrape
  | cons g₀ gs =>
      rw [check_ok resp file eff (g₀ :: gs) seen hscrape (List.cons_ne_nil g₀ gs) hload,
          runCycleBody_no_new (g₀ :: gs) seen file eff hnew]

theorem check_forbidden (resp : FetchOutcome) (file : FileState) (eff : Effects)
    (games : List Game) (seen : List JValue)
    (hscrape : scrape_aicade_games resp = .ok games) (hgames : games ≠ [])
    (hload : load_seen_games file = .ok seen)
    (hm : eff.mention = SendOutcome.forbidden) :
    check_for_new_games true resp file eff = .ok ([], file) := by
  rw [check_ok resp file eff games seen hscrape hgames hload,
      runCycleBody_forbidden games seen file eff hm]

/-! ## Claim C3: change detection -/

/-- C3: the change detection outputs exactly the subsequence of the fetched
list whose url is absent from the seen set, re-ordered oldest-of-the-new
first (the fetched list is newest-first, so the output is the reverse of the
filtered subsequence); concretely, input `[C, B, A]` with nothing seen
yields dispatch order `[A, B, C]`. -/
theorem detectNew_unseen_oldest_first :
    (∀ (current_games : List Game) (seen : List JValue),
        detectNew current_games seen
            = (current_games.filter (fun g => !(seenContains seen g.url))).reverse
          ∧ (current_games.filter (fun g => !(seenContains seen g.url))).Sublist
              current_games)
    ∧ detectNew [gameC, gameB, gameA] [] = [gameA, gameB, gameC] := by
  refine ⟨fun cg seen => ⟨List.filter_reverse _ _, List.filter_sublist _⟩, rfl⟩

/-! ## Claim C6: malformed catalog response -/

/-- C6: the failing input. `scrape_aicade_games` is meant to treat every
format deviation as "no items" (it logs a warning and returns `[]`), but the
wrong-type deviation `{"data": 5}` slips past the guard: evaluating
`'data' not in api_data['data']` on the int `5` raises an uncaught
`TypeError`, which propagates out of the fetcher and aborts
`check_for_new_games` with an error instead of "nothing to do". -/
theorem scrape_crashes_on_wrong_type :
    scrape_aicade_games (.ok (.obj [("data", .num 5)]))
        = .error "TypeError: argument is not iterable"
    ∧ check_for_new_games true (.ok (.obj [("data", .num 5)])) .missing
        { mention := .ok, embedSend := fun _ => .ok, writeOk := true }
        = .error "TypeError: argument is not iterable" := ⟨rfl, rfl⟩

/-! ## Claim C10: loading the seen set -/

/-- C10 counterexample: a state file whose content is the valid JSON text `5`
defeats the `JSONDecodeError`/`IOError` handlers: `set(5)` raises an uncaught
`TypeError`, so the load is not total over all filesystem states. -/
theorem load_seen_games_raises_on_number :
    load_seen_games (.content (.num 5))
      = .error "TypeError: object is not iterable" := rfl

/-- C10 amended: a missing, unreadable or JSON-invalid state file loads as
the empty set (the error is only logged); a file holding a JSON array of
hashable values loads as the set of its elements; but a file holding a valid
JSON non-iterable (e.g. a number) raises `TypeError`. -/
theorem load_seen_games_cases (fs : FileState) :
    (fs = FileState.missing ∨ fs = FileState.ioError ∨ fs = FileState.badJson →
        load_seen_games fs = .ok [])
    ∧ (∀ xs, fs = FileState.content (.arr xs) → xs.all hashable = true →
        load_seen_games fs = .ok xs)
    ∧ (∀ n, fs = FileState.content (.num n) →
        load_seen_games fs = .error "TypeError: object is not iterable") := by
  refine ⟨?_, ?_, ?_⟩
  · rintro (rfl | rfl | rfl) <;> rfl
  · rintro xs rfl hall
    exact load_content_arr xs (List.all_eq_true.mp hall)
  · rintro n rfl
    rfl

/-- Witness for `load_seen_games_cases` at a concrete well-formed file. -/
theorem load_seen_games_cases_witness :
    load_seen_games (FileState.content (.arr [.str "https://play.aicade.io/abc123"]))
      = .ok [.str "https://play.aicade.io/abc123"] :=
  (load_seen_games_cases
      (FileState.content (.arr [.str "https://play.aicade.io/abc123"]))).2.1
    [.str "https://play.aicade.io/abc123"] rfl rfl

/-! ## Claim C4: the animated-image path -/

/-- C4 counterexample: an item with a valid animated reference whose
(hypothetical) downloaded bytes match a recognized animated-image signature.
The claim requires the resolver to download the bytes and produce
`AttachBytes`; instead the fetcher drops `gif_url` when building the item
(the built item has no animated field at all) and the decision for it is
`Placeholder` — no download and no attachment exist anywhere in the cycle. -/
theorem animated_download_counterexample :
    spec_animated_signature [71, 73, 70, 56, 57, 97, 1, 0] = true
    ∧ processItem gifEntry
        = .ok (some { title := .str "Snake", url := "https://play.aicade.io/abc123",
                      cover_image := none })
    ∧ resolve_media none = .Placeholder logo_url
    ∧ isAttachBytes (resolve_media none) = false := ⟨rfl, rfl, rfl, rfl⟩

/-- C4 amended: the code resolves media without any download: the decision
is a function of the static cover alone and is never `AttachBytes`, and the
animated reference plays no role — `buildGame` yields the same item whether
or not the record carries a `gif_url`. -/
theorem media_never_attach_bytes (cover : Option JValue) (v : JValue)
    (gd : List (String × JValue)) :
    isAttachBytes (resolve_media cover) = false
    ∧ buildGame (.obj (("gif_url", v) :: gd)) = buildGame (.obj gd) := by
  constructor
  · cases cover with
    | none => rfl
    | some c =>
        simp only [resolve_media]
        split <;> rfl
  · have h₁ : ∀ k : String, "gif_url" ≠ k → jget (("gif_url", v) :: gd) k = jget gd k := by
      intro k hk
      simp [jget, hk]
    simp only [buildGame, pyGet, h₁ "game_title" (by decide), h₁ "publish_id" (by decide),
               h₁ "cover_image" (by decide)]

/-! ## Claim C5: the static-image decision -/

/-- C5 counterexample: an inline-data URI cover is *not* skipped: the code
forwards it as `ReferenceUrl` (it is truthy and differs from `'null'`),
while the claim requires such a candidate to be invalid, which with no other
candidate would force `Placeholder`. -/
theorem data_uri_not_skipped :
    List.isPrefixOf "data:".toList dataUri.toList = true
    ∧ resolve_media (some (.str dataUri)) = .ReferenceUrl (.str dataUri)
    ∧ resolve_media (some (.str dataUri)) ≠ .Placeholder logo_url := by
  refine ⟨rfl, rfl, by decide⟩

/-- C5 amended: exactly one decision per item, determined by the test
`cover and cover != 'null'`: a cover is skipped iff it is absent, falsy
(e.g. the empty string) or the literal string `'null'` — inline-data URIs
are *not* skipped. A surviving cover yields `ReferenceUrl` (mirrored by
`set_image` in the embed); otherwise the decision is `Placeholder` with the
fixed logo (mirrored by `set_thumbnail`), and never `Placeholder` when a
surviving cover exists. -/
theorem media_decision_cases (g : Game) :
    (coverValid g.cover_image = true →
        resolve_media g.cover_image = .ReferenceUrl (g.cover_image.getD .null)
        ∧ (mkEmbed g).image = g.cover_image ∧ (mkEmbed g).thumbnail = none)
    ∧ (coverValid g.cover_image = false →
        resolve_media g.cover_image = .Placeholder logo_url
        ∧ (mkEmbed g).image = none ∧ (mkEmbed g).thumbnail = some logo_url)
    ∧ (coverValid g.cover_image = true ↔
        ∃ c, g.cover_image = some c ∧ pyTruthy c = true ∧ c ≠ JValue.str "null") := by
  cases hc : g.cover_image with
  | none =>
      refine ⟨fun h => ?_, fun _ => ?_, ?_⟩
      · simp [coverValid] at h
      · exact ⟨rfl, by simp [mkEmbed, hc, coverValid], by simp [mkEmbed, hc, coverValid]⟩
      · simp [coverValid]
  | some c =>
      by_cases hb : pyTruthy c = true ∧ c ≠ JValue.str "null"
      · have hj : JValue.jeq c (JValue.str "null") = false := by
          cases h : JValue.jeq c (JValue.str "null")
          · rfl
          · exact absurd ((JValue.jeq_iff _ _).mp h) hb.2
        have hcv : coverValid (some c) = true := by
          simp [coverValid, hb.1, hj]
        refine ⟨fun _ => ?_, fun h => ?_, ?_⟩
        · refine ⟨by simp [resolve_media, hb.1, hj], ?_, ?_⟩
          · simp [mkEmbed, hc, hcv]
          · simp [mkEmbed, hc, hcv]
        · rw [hcv] at h
          cases h
        · exact ⟨fun _ => ⟨c, rfl, hb.1, hb.2⟩, fun _ => hcv⟩
      · have hcv : coverValid (some c) = false := by
          by_cases hp : pyTruthy c = true
          · have hcnull : c = JValue.str "null" := by
              by_contra hne
              exact hb ⟨hp, hne⟩
            subst hcnull
            rfl
          · cases hpb : pyTruthy c
            · simp [coverValid, hpb]
            · exact absurd hpb hp
        refine ⟨fun h => ?_, fun _ => ?_, ?_⟩
        · rw [hcv] at h
          cases h
        · refine ⟨?_, ?_, ?_⟩
          · have hres : resolve_media (some c) = .Placeholder logo_url := by
              simp only [resolve_media]
              rw [if_neg]
              intro hand
              simp only [Bool.and_eq_true] at hand
              refine hb ⟨hand.1, fun hcn => ?_⟩
              have hj2 := hand.2
              rw [hcn] at hj2
              exact absurd hj2 (by decide)
            exact hres
          · simp [mkEmbed, hc, hcv]
          · simp [mkEmbed, hc, hcv]
        · refine ⟨fun h => ?_, fun hex => ?_⟩
          · rw [hcv] at h
            cases h
          · rcases hex with ⟨c', hcc, hp2, hnn⟩
            injection hcc with hcc
            subst hcc
            exact (hb ⟨hp2, hnn⟩).elim

/-- Witness for `media_decision_cases`: a valid static cover with an invalid
(`'null'`) animated slot resolves to `ReferenceUrl`, never `Placeholder`. -/
theorem media_decision_cases_witness :
    resolve_media (some (.str "https://img.aicade.io/snake.png"))
      = .ReferenceUrl (.str "https://img.aicade.io/snake.png") :=
  ((media_decision_cases
      { title := .str "Snake", url := "https://play.aicade.io/abc123",
        cover_image := some (.str "https://img.aicade.io/snake.png") }).1 rfl).1

/-! ## Claim C9: partial items are rejected -/

/-- Reduction of the fetcher's loop body on an object record: the `.get`
calls succeed and the result is decided by the two lookups and truthiness. -/
theorem buildGame_obj (gd : List (String × JValue)) :
    buildGame (.obj gd)
      = match jget gd "game_title", jget gd "publish_id" with
        | some t, some p =>
            if pyTruthy t && pyTruthy p then
              .ok (some { title := t, url := "https://play.aicade.io/" ++ pyStr p,
                          cover_image := jget gd "cover_image" })
            else .ok none
        | _, _ => .ok none := rfl

/-- C9: an entry record lacking a truthy `game_title` or `publish_id`
(absent or empty) produces no item, and every item that is produced carries
`url = "https://play.aicade.io/" ++ publish_id` together with the record's
title and cover. -/
theorem fetcher_skips_partial_items (gd : List (String × JValue)) :
    (jget gd "game_title" = none ∨ jget gd "publish_id" = none ∨
        jget gd "game_title" = some (.str "") ∨ jget gd "publish_id" = some (.str "") →
      buildGame (.obj gd) = .ok none)
    ∧ (∀ g, buildGame (.obj gd) = .ok (some g) →
        ∃ t p, jget gd "game_title" = some t ∧ jget gd "publish_id" = some p
          ∧ pyTruthy t = true ∧ pyTruthy p = true
          ∧ g = { title := t, url := "https://play.aicade.io/" ++ pyStr p,
                  cover_image := jget gd "cover_image" }) := by
  constructor
  · intro h
    rw [buildGame_obj]
    rcases h with h | h | h | h
    · rw [h]
    · rw [h]
      cases jget gd "game_title" <;> rfl
    · rw [h]
      cases jget gd "publish_id" <;> rfl
    · rw [h]
      cases ht : jget gd "game_title" with
      | none => rfl
      | some t =>
          have hps : pyTruthy (JValue.str "") = false := rfl
          simp [hps]
  · intro g hg
    rw [buildGame_obj] at hg
    cases ht : jget gd "game_title" with
    | none =>
        rw [ht] at hg
        cases hp : jget gd "publish_id" <;> rw [hp] at hg <;> simp at hg
    | some t =>
        cases hp : jget gd "publish_id" with
        | none =>
            rw [ht, hp] at hg
            simp at hg
        | some p =>
            rw [ht, hp] at hg
            have hg₂ : (if pyTruthy t && pyTruthy p then
                Except.ok (some { title := t, url := "https://play.aicade.io/" ++ pyStr p,
                                  cover_image := jget gd "cover_image" })
                else Except.ok none) = Except.ok (some g) := hg
            cases htr : (pyTruthy t && pyTruthy p) with
            | true =>
                rw [htr, if_pos rfl] at hg₂
                simp only [Bool.and_eq_true] at htr
                refine ⟨t, p, rfl, rfl, htr.1, htr.2, ?_⟩
                injection hg₂ with hg₂
                injection hg₂ with hg₂
                exact hg₂.symm
            | false =>
                rw [htr, if_neg Bool.false_ne_true] at hg₂
                cases hg₂

/-- Witness for `fetcher_skips_partial_items`: a record with a title but no
publish id yields no item. -/
theorem fetcher_skips_partial_items_witness :
    buildGame (.obj [("game_title", .str "Snake")]) = .ok none :=
  (fetcher_skips_partial_items [("game_title", .str "Snake")]).1
    (Or.inr (Or.inl rfl))

/-! ## Claim C8: scheduler mutual exclusion -/

/-- C8: the manual path is broken rather than gated. `manual_check`
(main.py line 168) evaluates `check_for_new_games.now`, an attribute
`tasks.Loop` does not define, so the lookup raises `AttributeError` inside
the command handler and no manual pipeline iteration is ever invoked: a
manual trigger from the idle state runs zero cycles (not the one the claim
accepts from `Idle`), and a manual trigger during a running timer cycle
leaves exactly the one timer execution in flight — with no mutual-exclusion
gate ever consulted on the manual path. -/
theorem manual_trigger_runs_no_cycle :
    loopGetMethod "now" = .error "AttributeError: Loop object has no attribute now"
    ∧ inFlight (schedRun [SchedEvent.manualTrigger]) = 0
    ∧ inFlight (schedRun [SchedEvent.timerTick, SchedEvent.manualTrigger]) = 1
    ∧ (schedRun [SchedEvent.timerTick]).timerBusy = true :=
  ⟨rfl, rfl, rfl, rfl⟩

/-! ## Claim C2: mention failure and the summaries -/

/-- C2 counterexample: with one new game, a `Forbidden` (permission) mention
failure aborts the whole cycle (main.py line 128 `return`): no summary embed
is sent and nothing is committed, whereas the identical cycle with a
delivered mention sends the summary and commits the url. -/
theorem forbidden_mention_suppresses_summaries :
    check_for_new_games true (.ok demoResponse) .missing
        { mention := .forbidden, embedSend := fun _ => .ok, writeOk := true }
      = .ok ([], .missing)
    ∧ check_for_new_games true (.ok demoResponse) .missing
        { mention := .ok, embedSend := fun _ => .ok, writeOk := true }
      = .ok ([Msg.roleMention, Msg.gameEmbed (mkEmbed demoGame)],
             .content (.arr [.str "https://play.aicade.io/abc123"])) := ⟨rfl, rfl⟩

/-- C2 amended: only a *transport* mention failure (`HTTPException` other
than `Forbidden`) is logged and followed by the per-item summaries — the
cycle result then differs from the all-delivered cycle only by the missing
leading mention; a *permission* (`Forbidden`) mention failure instead aborts
the cycle: no summaries, no commit, state file untouched. -/
theorem mention_failure_behavior (resp : FetchOutcome) (file : FileState)
    (send : Game → SendOutcome) (w : Bool) (msgs : List Msg) (file₁ : FileState)
    (hok : check_for_new_games true resp file
        { mention := .ok, embedSend := send, writeOk := w }
      = .ok (Msg.roleMention :: msgs, file₁)) :
    check_for_new_games true resp file
        { mention := .httpErr, embedSend := send, writeOk := w }
      = .ok (msgs, file₁)
    ∧ check_for_new_games true resp file
        { mention := .forbidden, embedSend := send, writeOk := w }
      = .ok ([], file) := by
  cases hscrape : scrape_aicade_games resp with
  | error e =>
      rw [check_scrape_error resp file _ e hscrape] at hok
      cases hok
  | ok games =>
      cases games with
      | nil =>
          rw [check_empty resp file _ hscrape] at hok
          injection hok with hok
          injection hok with hok1 hok2
          cases hok1
      | cons g₀ gs =>
          cases hload : load_seen_games file with
          | error e =>
              rw [check_load_error resp file _ (g₀ :: gs) e hscrape
                    (List.cons_ne_nil g₀ gs) hload] at hok
              cases hok
          | ok seen =>
              cases hnew : detectNew (g₀ :: gs) seen with
              | nil =>
                  rw [check_no_new resp file _ (g₀ :: gs) seen hscrape hload hnew] at hok
                  injection hok with hok
                  injection hok with hok1 hok2
                  cases hok1
              | cons d ds =>
                  have hne : detectNew (g₀ :: gs) seen ≠ [] := by
                    rw [hnew]
                    exact List.cons_ne_nil d ds
                  rw [check_ok resp file _ (g₀ :: gs) seen hscrape
                        (List.cons_ne_nil g₀ gs) hload,
                      runCycleBody_dispatch (g₀ :: gs) seen file _ hne
                        (by intro h; cases h)] at hok
                  injection hok with hok
                  injection hok with hok1 hok2
                  have hok1' : Msg.roleMention
                        :: ((detectNew (g₀ :: gs) seen).foldl (sendStep send) ([], seen)).1
                      = Msg.roleMention :: msgs := hok1
                  injection hok1' with hok1a hok1b
                  subst hok1b
                  subst hok2
                  constructor
                  · rw [check_ok resp file _ (g₀ :: gs) seen hscrape
                          (List.cons_ne_nil g₀ gs) hload,
                        runCycleBody_dispatch (g₀ :: gs) seen file _ hne
                          (by intro h; cases h)]
                    rfl
                  · exact check_forbidden resp file _ (g₀ :: gs) seen hscrape
                      (List.cons_ne_nil g₀ gs) hload rfl

/-- Witness for `mention_failure_behavior`: the concrete one-new-game cycle
with a transport-failed mention still sends the summary and commits. -/
theorem mention_failure_behavior_witness :
    check_for_new_games true (.ok demoResponse) .missing
        { mention := .httpErr, embedSend := fun _ => .ok, writeOk := true }
      = .ok ([Msg.gameEmbed (mkEmbed demoGame)],
             .content (.arr [.str "https://play.aicade.io/abc123"])) :=
  (mention_failure_behavior (.ok demoResponse) .missing (fun _ => .ok) true
      [Msg.gameEmbed (mkEmbed demoGame)]
      (.content (.arr [.str "https://play.aicade.io/abc123"])) rfl).1

/-! ## Claim C1: commit follows the summary send -/

/-- C1: in a dispatching cycle (the mention was not `Forbidden`, so the
per-item sends are reached), for any detected-new item `g` of a catalog
whose items have pairwise distinct urls: if `g`'s summary send fails, its
url is committed neither to the in-memory set (`commitSet`) nor to the
state file, and the next cycle's detection on the same catalog flags `g` as
new again; if the send succeeds, the url is in the in-memory set, and in
the persisted file as soon as the write succeeds. -/
theorem send_failure_not_committed (resp : FetchOutcome) (file : FileState)
    (eff : Effects) (games : List Game) (seen : List JValue) (g : Game)
    (hscrape : scrape_aicade_games resp = .ok games)
    (hnodup : (games.map Game.url).Nodup)
    (hload : load_seen_games file = .ok seen)
    (hg : g ∈ detectNew games seen)
    (hm : eff.mention ≠ SendOutcome.forbidden) :
    check_for_new_games true resp file eff
        = .ok ((if eff.mention = SendOutcome.ok then [Msg.roleMention] else [])
                 ++ ((detectNew games seen).foldl (sendStep eff.embedSend) ([], seen)).1,
               save_seen_games (commitSet eff.embedSend seen (detectNew games seen))
                 eff.writeOk file)
    ∧ (eff.embedSend g ≠ SendOutcome.ok →
        JValue.str g.url ∉ commitSet eff.embedSend seen (detectNew games seen)
        ∧ ∀ seen₁,
            load_seen_games (save_seen_games
                (commitSet eff.embedSend seen (detectNew games seen)) eff.writeOk file)
              = .ok seen₁ →
            JValue.str g.url ∉ seen₁ ∧ g ∈ detectNew games seen₁)
    ∧ (eff.embedSend g = SendOutcome.ok →
        JValue.str g.url ∈ commitSet eff.embedSend seen (detectNew games seen)
        ∧ (eff.writeOk = true →
            load_seen_games (save_seen_games
                (commitSet eff.embedSend seen (detectNew games seen)) eff.writeOk file)
              = .ok (commitSet eff.embedSend seen (detectNew games seen)))) := by
  have hgmem : g ∈ games := ((mem_detectNew_iff games seen g).mp hg).1
  have hgseen : seenContains seen g.url = false := ((mem_detectNew_iff games seen g).mp hg).2
  have hne : detectNew games seen ≠ [] := List.ne_nil_of_mem hg
  have hgames : games ≠ [] := List.ne_nil_of_mem hgmem
  have hS : ∀ v ∈ commitSet eff.embedSend seen (detectNew games seen), hashable v = true :=
    hashable_commitSet eff.embedSend (detectNew games seen) seen
      (hashable_of_load file seen hload)
  refine ⟨?_, ?_, ?_⟩
  · rw [check_ok resp file eff games seen hscrape hgames hload,
        runCycleBody_dispatch games seen file eff hne hm]
  · intro hfail
    have hnotmem : JValue.str g.url ∉ commitSet eff.embedSend seen (detectNew games seen) := by
      have hcond : ∀ g' ∈ detectNew games seen,
          eff.embedSend g' = SendOutcome.ok → g'.url ≠ g.url := by
        intro g' hg' hsend hurl
        have hg'mem : g' ∈ games := ((mem_detectNew_iff games seen g').mp hg').1
        have hgg : g' = g := List.inj_on_of_nodup_map hnodup hg'mem hgmem hurl
        rw [hgg] at hsend
        exact hfail hsend
      rw [mem_commitSet_iff_of_not_sent eff.embedSend g.url (detectNew games seen) seen hcond]
      exact not_mem_of_seenContains_eq_false seen g.url hgseen
    refine ⟨hnotmem, ?_⟩
    intro seen₁ hload₁
    cases hw : eff.writeOk with
    | true =>
        rw [hw] at hload₁
        have hldS : load_seen_games (save_seen_games
              (commitSet eff.embedSend seen (detectNew games seen)) true file)
            = .ok (commitSet eff.embedSend seen (detectNew games seen)) :=
          load_content_arr _ hS
        rw [hldS] at hload₁
        injection hload₁ with hload₁
        subst hload₁
        exact ⟨hnotmem, (mem_detectNew_iff games _ g).mpr
          ⟨hgmem, seenContains_eq_false _ _ hnotmem⟩⟩
    | false =>
        rw [hw] at hload₁
        have hldf : load_seen_games (save_seen_games
              (commitSet eff.embedSend seen (detectNew games seen)) false file)
            = .ok seen := hload
        rw [hldf] at hload₁
        injection hload₁ with hload₁
        subst hload₁
        exact ⟨not_mem_of_seenContains_eq_false seen g.url hgseen, hg⟩
  · intro hsucc
    refine ⟨mem_commitSet_of_sent eff.embedSend g hsucc (detectNew games seen) seen hg, ?_⟩
    intro hw
    rw [hw]
    exact load_content_arr _ hS

/-- Witness for `send_failure_not_committed`: in the concrete one-new-game
cycle whose embed send fails with `HTTPException`, the url stays out of the
in-memory seen set. -/
theorem send_failure_not_committed_witness :
    JValue.str "https://play.aicade.io/abc123"
      ∉ commitSet (fun _ => SendOutcome.httpErr) [] (detectNew [demoGame] []) :=
  ((send_failure_not_committed (.ok demoResponse) .missing
      { mention := .ok, embedSend := fun _ => .httpErr, writeOk := true }
      [demoGame] [] demoGame rfl (by decide) rfl (by decide) (by decide)).2.1
    (by decide)).1

/-! ## Claim C7: idempotence -/

/-- C7: with every send delivered and the state write succeeding, running
the cycle a second time on an unchanged catalog response and the file the
first run produced sends no message and leaves the file unchanged: every
url announced in the first run is in the set the second run loads, so the
second detection is empty. -/
theorem pipeline_idempotent (resp : FetchOutcome) (file : FileState) (eff : Effects)
    (games : List Game) (seen : List JValue) (msgs : List Msg) (file₁ : FileState)
    (hm : eff.mention = SendOutcome.ok)
    (hsend : ∀ g, eff.embedSend g = SendOutcome.ok)
    (hw : eff.writeOk = true)
    (hscrape : scrape_aicade_games resp = .ok games)
    (hload : load_seen_games file = .ok seen)
    (h₁ : check_for_new_games true resp file eff = .ok (msgs, file₁)) :
    check_for_new_games true resp file₁ eff = .ok ([], file₁) := by
  cases hnewc : detectNew games seen with
  | nil =>
      rw [check_no_new resp file eff games seen hscrape hload hnewc] at h₁
      injection h₁ with h₁
      injection h₁ with h₁1 h₁2
      subst h₁2
      exact check_no_new resp file eff games seen hscrape hload hnewc
  | cons d ds =>
      have hne : detectNew games seen ≠ [] := by
        rw [hnewc]
        exact List.cons_ne_nil d ds
      have hgames : games ≠ [] := by
        intro hgnil
        rw [hgnil] at hnewc
        exact List.noConfusion hnewc
      have hmne : eff.mention ≠ SendOutcome.forbidden := by
        rw [hm]
        intro h
        cases h
      rw [check_ok resp file eff games seen hscrape hgames hload,
          runCycleBody_dispatch games seen file eff hne hmne] at h₁
      injection h₁ with h₁
      injection h₁ with h₁1 h₁2
      subst h₁2
      rw [hw]
      have hS : ∀ v ∈ commitSet eff.embedSend seen (detectNew games seen),
          hashable v = true :=
        hashable_commitSet eff.embedSend (detectNew games seen) seen
          (hashable_of_load file seen hload)
      have hldS : load_seen_games (save_seen_games
            (commitSet eff.embedSend seen (detectNew games seen)) true file)
          = .ok (commitSet eff.embedSend seen (detectNew games seen)) :=
        load_content_arr _ hS
      have hnew₂ : detectNew games (commitSet eff.embedSend seen (detectNew games seen))
          = [] := by
        rw [detectNew_eq_nil_iff]
        intro g' hg'
        rw [seenContains_iff]
        cases hsc : seenContains seen g'.url with
        | true =>
            exact mem_commitSet_of_mem eff.embedSend _ (detectNew games seen) seen
              ((seenContains_iff seen g'.url).mp hsc)
        | false =>
            exact mem_commitSet_of_sent eff.embedSend g' (hsend g') (detectNew games seen)
              seen ((mem_detectNew_iff games seen g').mpr ⟨hg', hsc⟩)
      exact check_no_new resp _ eff games _ hscrape hldS hnew₂

/-- Witness for `pipeline_idempotent`: the concrete one-new-game cycle run
on the file its first run persisted yields no message and the same file. -/
theorem pipeline_idempotent_witness :
    check_for_new_games true (.ok demoResponse)
        (.content (.arr [.str "https://play.aicade.io/abc123"]))
        { mention := .ok, embedSend := fun _ => .ok, writeOk := true }
      = .ok ([], .content (.arr [.str "https://play.aicade.io/abc123"])) :=
  pipeline_idempotent (.ok demoResponse) .missing
    { mention := .ok, embedSend := fun _ => .ok, writeOk := true }
    [demoGame] [] [Msg.roleMention, Msg.gameEmbed (mkEmbed demoGame)]
    (.content (.arr [.str "https://play.aicade.io/abc123"]))
    rfl (fun _ => rfl) rfl rfl rfl rfl

end Aicade
